import Mathlib

/-!
Verification of `scripts/sql/snowflake/validate_snowsql.py`.

The script has three parts, each embedded below:

* `substitute_tokens` — one pass of
  `re.sub(r'\$\{([^}]+)\}', replacer, content)` where the replacer looks the
  captured name up in the process environment, substitutes the value when
  present and a quoted placeholder when absent, appending absent names to a
  `missing` list.
* `validate_file` — substitutes, writes a temp file, runs `sqlfluff parse`
  with a 120 s timeout, and classifies the combined stdout+stderr output.
* `main` — splits `CHANGED_FILES`, keeps the `.snowsql` entries, validates
  each existing file, accumulates failures, writes a report when there are
  errors, and exits 0 or 1.

Effectful pieces are embedded with their inputs made explicit: the
environment is a function `String → Option String`, the checker subprocess
is a function from the substituted content to a `SubprocessBehavior`, the
on-disk state is a predicate `String → Bool` plus a content map, and the
temp-file side effect is explicit state passing on a list of live paths.
-/

namespace SnowsqlValidate

/-! ## The regex scan of `\$\{([^}]+)\}`

`re.sub` walks the text left to right, replacing each leftmost
non-overlapping match of `\$\{([^}]+)\}`: a literal `${`, then one or more
characters other than `}` (the captured name), then `}`.  We embed that walk
as a left-to-right character scan that splits the text into segments:
literal characters passed through unchanged, and matched token references.
-/

/-- A segment of the input text as seen by the regex engine: either one
literal character copied through, or a matched `${name}` token reference
(whose `name` is nonempty and free of `}` by construction of the scan). -/
inductive Seg where
  | lit (c : Char)
  | tok (name : List Char)
  deriving DecidableEq

/-- Scanner state: outside any candidate match, just after a `$`, or inside
`${…` having read `acc` name characters (held in reverse). -/
inductive ScanSt where
  | out
  | dollar
  | inTok (acc : List Char)
  deriving DecidableEq

/-- One step of the left-to-right regex walk.  A match begins only at `$`
followed by `{`; inside `${…` every character except `}` extends the
captured name (the class `[^}]+`); a `}` closes the match, except that an
empty capture (`${}`) is not a match at all — `+` demands at least one
character — so its three characters are emitted literally. -/
def scanStep (s : List Seg × ScanSt) (c : Char) : List Seg × ScanSt :=
  match s with
  | (segs, .out) =>
    if c = '$' then (segs, .dollar) else (segs ++ [.lit c], .out)
  | (segs, .dollar) =>
    if c = '{' then (segs, .inTok [])
    else if c = '$' then (segs ++ [.lit '$'], .dollar)
    else (segs ++ [.lit '$', .lit c], .out)
  | (segs, .inTok acc) =>
    if c = '}' then
      if acc = [] then (segs ++ [.lit '$', .lit '{', .lit '}'], .out)
      else (segs ++ [.tok acc.reverse], .out)
    else (segs, .inTok (c :: acc))

/-- At end of input an unfinished candidate match (`$` or `${name` with no
closing `}`) never becomes a match — no `}` follows, and no later match can
start inside it since a match needs a `}` — so its characters are literal. -/
def scanFinish (s : List Seg × ScanSt) : List Seg :=
  match s with
  | (segs, .out) => segs
  | (segs, .dollar) => segs ++ [.lit '$']
  | (segs, .inTok acc) => segs ++ [.lit '$', .lit '{'] ++ acc.reverse.map .lit

/-- The list of segments the regex engine produces on `cs`: the leftmost
non-overlapping matches of `\$\{([^}]+)\}` as `tok` segments, everything
else as literal characters in order. -/
def scanSegs (cs : List Char) : List Seg :=
  scanFinish (cs.foldl scanStep ([], .out))

/-- The characters of the original text that a segment stands for. -/
def segChars : Seg → List Char
  | .lit c => [c]
  | .tok name => '$' :: '{' :: (name ++ ['}'])

/-- The placeholder the replacer returns for a missing token:
`f"'__MISSING_{token}__'"`, a quoted SQL string literal. -/
def placeholder (name : String) : String :=
  "\x27__MISSING_" ++ name ++ "__\x27"

/-- What the replacer writes for one segment: a literal character is copied;
a matched token becomes the environment value when present, the quoted
placeholder when absent. -/
def renderSeg (env : String → Option String) : Seg → List Char
  | .lit c => [c]
  | .tok name =>
    match env (String.mk name) with
    | some v => v.data
    | none => (placeholder (String.mk name)).data

/-- What the replacer appends to `missing` while handling one segment: the
token's name exactly when its lookup returned nothing. -/
def missingSeg (env : String → Option String) : Seg → List String
  | .lit _ => []
  | .tok name =>
    match env (String.mk name) with
    | some _ => []
    | none => [String.mk name]

/-- The function `substitute_tokens(content)` of the script, with the process environment
an explicit argument: one `re.sub` pass replacing every `${NAME}` match via
the replacer, returning the rewritten text and the missing-name list in
match order. -/
def substitute_tokens (env : String → Option String) (content : String) :
    String × List String :=
  let segs := scanSegs content.data
  (String.mk (segs.flatMap (renderSeg env)), segs.flatMap (missingSeg env))

/-! ## `validate_file` -/

/-- Bool-valued substring test, the embedding of Python's `'x' in s`. -/
def isInfixL (sub : List Char) : List Char → Bool
  | [] => sub.isEmpty
  | c :: cs => sub.isPrefixOf (c :: cs) || isInfixL sub cs

/-- Python `marker in s` for strings. -/
def containsSub (s marker : String) : Bool :=
  isInfixL marker.data s.data

/-- The literal whose presence in the checker output marks a parse failure. -/
def unparsableMarker : String := "[UNPARSABLE]"

/-- The second failure literal the script greps the output for. -/
def fatalMarker : String := "FATAL"

/-- How one `subprocess.run` of `sqlfluff parse` can end, as seen by
`validate_file`: a completed process with captured streams and exit status,
a `TimeoutExpired` after 120 s, or any other exception escaping the call. -/
inductive SubprocessBehavior where
  | completes (stdout stderr : String) (returncode : Int)
  | timesOut
  | raises (msg : String)
  deriving DecidableEq

/-- The `has_error` test of `validate_file` on the combined
`result.stdout + result.stderr` and `result.returncode`:
`'[UNPARSABLE]' in output or 'FATAL' in output or returncode not in (0, 1)`. -/
def has_error (output : String) (returncode : Int) : Bool :=
  containsSub output unparsableMarker || containsSub output fatalMarker ||
    !(returncode == 0 || returncode == 1)

/-- The function `validate_file` of the script, its effects made explicit: `content` is
what `open(filepath).read()` returned, `run` maps the substituted text
written to the temp file to the subprocess behaviour.  A completed run is
classified by `has_error`; `TimeoutExpired` is caught and turned into a
failure tuple with the synthetic message; any other exception propagates
(`Except.error`).  Returns `(passed, output, missing_tokens)`. -/
def validate_file (env : String → Option String)
    (run : String → SubprocessBehavior) (content : String) :
    Except String (Bool × String × List String) :=
  let sm := substitute_tokens env content
  match run sm.1 with
  | .completes out err code =>
    let output := out ++ err
    .ok (!(has_error output code), output, sm.2)
  | .timesOut => .ok (false, "Validation timed out after 120 seconds.", sm.2)
  | .raises e => .error e

/-- The temp-file side effect of `validate_file` on the set of live paths:
`tempfile.NamedTemporaryFile(delete=False)` creates `tmpPath`, and the
`finally: os.unlink(tmp_path)` removes it on each of the three exit paths —
normal return, the caught `TimeoutExpired`, and a propagating exception. -/
def validate_file_tempFiles (fs : List String) (tmpPath : String)
    (b : SubprocessBehavior) : List String :=
  let fs1 := tmpPath :: fs
  match b with
  | .completes _ _ _ => fs1.erase tmpPath
  | .timesOut => fs1.erase tmpPath
  | .raises _ => fs1.erase tmpPath

/-! ## `main` -/

/-- Python `str.split()` with no separator: split on runs of whitespace,
never producing empty pieces.  (`acc` holds the current word, reversed.) -/
def splitWsAux : List Char → List Char → List (List Char)
  | [], acc => if acc = [] then [] else [acc.reverse]
  | c :: cs, acc =>
    if c.isWhitespace then
      if acc = [] then splitWsAux cs [] else acc.reverse :: splitWsAux cs []
    else splitWsAux cs (c :: acc)

/-- Python `files_env.split()`. -/
def splitWs (cs : List Char) : List (List Char) := splitWsAux cs []

/-- Drop leading whitespace. -/
def dropLeadingWs : List Char → List Char
  | [] => []
  | c :: cs => if c.isWhitespace then dropLeadingWs cs else c :: cs

/-- Python `str.strip()`: drop trailing then leading whitespace. -/
def stripWs (cs : List Char) : List Char :=
  dropLeadingWs (dropLeadingWs cs.reverse).reverse

/-- Python `f.endswith(suffix)` for the `.snowsql` suffix. -/
def isSnowsql (f : String) : Bool :=
  List.isSuffixOf ".snowsql".data f.data

/-- The list comprehension keeping the split entries with the `.snowsql` suffix. -/
def candidateFilesL (files_env : List Char) : List String :=
  ((splitWs files_env).map String.mk).filter isSnowsql

/-- One iteration of the `for filepath in files` loop, acting on the
accumulator `(all_errors, failed_files)`: a path not on disk is skipped with
a warning; otherwise the file is validated and, on failure, the pair
`(filepath, output.strip())` and the path are appended.  An exception from
`validate_file` is uncaught in `main`, so it propagates. -/
def processFile (env : String → Option String)
    (run : String → SubprocessBehavior) (onDisk : String → Bool)
    (contentOf : String → String)
    (acc : List (String × String) × List String) (filepath : String) :
    Except String (List (String × String) × List String) :=
  if onDisk filepath then
    match validate_file env run (contentOf filepath) with
    | .error e => .error e
    | .ok (passed, output, _missing) =>
      if passed then .ok acc
      else
        .ok (acc.1 ++ [(filepath, String.mk (stripWs output.data))],
          acc.2 ++ [filepath])
  else .ok acc

/-- The `for filepath in files` loop of `main`, threading the accumulator
`(all_errors, failed_files)`; an exception from the loop body aborts the
whole run (nothing in `main` catches it). -/
def runLoop (env : String → Option String)
    (run : String → SubprocessBehavior) (onDisk : String → Bool)
    (contentOf : String → String) :
    List String → (List (String × String) × List String) →
      Except String (List (String × String) × List String)
  | [], acc => .ok acc
  | f :: fs, acc =>
    match processFile env run onDisk contentOf acc f with
    | .error e => .error e
    | .ok acc1 => runLoop env run onDisk contentOf fs acc1

/-- The outward-visible outcome of one run of `main`: the `sys.exit`
argument, whether `/tmp/snowsql_errors.txt` was written, its blocks
(`all_errors`), and `failed_files`. -/
structure MainResult where
  exitCode : Nat
  reportWritten : Bool
  allErrors : List (String × String)
  failedFiles : List String
  deriving DecidableEq

/-- The function `main()` of the script with its inputs explicit: `changed` is the
`CHANGED_FILES` environment value (default `''`).  Empty after stripping →
exit 0; no `.snowsql` entries → exit 0; otherwise fold the validation loop
over the candidates, write the report exactly when `all_errors` is nonempty,
and exit 1 exactly when `failed_files` is nonempty. -/
def main_run (changed : String) (env : String → Option String)
    (run : String → SubprocessBehavior) (onDisk : String → Bool)
    (contentOf : String → String) : Except String MainResult :=
  let files_env := stripWs changed.data
  if files_env = [] then .ok ⟨0, false, [], []⟩
  else
    let files := candidateFilesL files_env
    if files = [] then .ok ⟨0, false, [], []⟩
    else
      match runLoop env run onDisk contentOf files ([], []) with
      | .error e => .error e
      | .ok (allErrors, failed) =>
        .ok ⟨if failed = [] then 0 else 1, !allErrors.isEmpty, allErrors,
          failed⟩

/-- Whether `main`'s loop body marks `f` as failed: it must exist on disk
and `validate_file` must return a completed-or-timeout result with
`passed = false`.  (The `error` branch is unreachable whenever the whole
fold returns `ok`.) -/
def fileFails (env : String → Option String)
    (run : String → SubprocessBehavior) (onDisk : String → Bool)
    (contentOf : String → String) (f : String) : Bool :=
  onDisk f &&
    match validate_file env run (contentOf f) with
    | .ok (passed, _, _) => !passed
    | .error _ => true

/-- The diagnostic text `main` stores for a failing file `f`. -/
def failOutput (env : String → Option String)
    (run : String → SubprocessBehavior) (contentOf : String → String)
    (f : String) : String :=
  match validate_file env run (contentOf f) with
  | .ok (_, output, _) => String.mk (stripWs output.data)
  | .error _ => ""

end SnowsqlValidate

namespace SnowsqlValidate

/-- The characters still pending in a scanner state. -/
def stChars : ScanSt → List Char
  | .out => []
  | .dollar => ['$']
  | .inTok acc => '$' :: '{' :: acc.reverse

/-- Is this segment a matched token reference? -/
def Seg.isTok : Seg → Bool
  | .tok _ => true
  | .lit _ => false

/-- Does any token reference occur among these segments? -/
def hasTok (segs : List Seg) : Bool := segs.any Seg.isTok

/-! ## Concrete fixtures used by witnesses and counterexamples -/

/-- An environment with no variables set. -/
def envEmpty : String → Option String := fun _ => none

/-- An environment defining only `DB`. -/
def envDB : String → Option String :=
  fun n => if n = "DB" then some "prod" else none

/-- A checker that parses cleanly: exit 0, harmless output. -/
def runClean : String → SubprocessBehavior := fun _ => .completes "ok" "" 0

/-- A checker that exits 0 but prints `FATAL` in its output. -/
def runFatal : String → SubprocessBehavior := fun _ => .completes "FATAL" "" 0

/-- A checker that exits 0 but prints the unparsable marker. -/
def runUnparsable : String → SubprocessBehavior :=
  fun _ => .completes "[UNPARSABLE]" "" 0

/-- A checker whose invocation always exceeds the timeout. -/
def runTimesOut : String → SubprocessBehavior := fun _ => .timesOut

/-- A disk on which no path exists. -/
def noDisk : String → Bool := fun _ => false

/-- A disk on which every path exists. -/
def allDisk : String → Bool := fun _ => true

/-- Every file reads as empty. -/
def emptyContent : String → String := fun _ => ""

-- sanity checks of the regex embedding (concrete behaviour of re.sub)
example :
    substitute_tokens (fun n => if n = "DB" then some "prod" else none)
      "use ${DB};" = ("use prod;", []) := by decide

example :
    substitute_tokens (fun _ => none) "use ${DB};" =
      ("use \x27__MISSING_DB__\x27;", ["DB"]) := by decide

example : substitute_tokens (fun _ => none) "${}" = ("${}", []) := by decide

example : substitute_tokens (fun _ => none) "a $\x7bx" = ("a $\x7bx", []) := by
  decide

example :
    substitute_tokens (fun _ => none) "$\x7bA$\x7bB\x7d" =
      ("\x27__MISSING_A$\x7bB__\x27", ["A$\x7bB"]) := by decide

example :
    substitute_tokens (fun _ => none) "${A} ${A}" =
      ("\x27__MISSING_A__\x27 \x27__MISSING_A__\x27", ["A", "A"]) := by decide

-- sanity checks of classification and main
example : has_error "ok [UNPARSABLE] here" 0 = true := by decide
example : has_error "all clean" 1 = false := by decide
example : has_error "FATAL: boom" 0 = true := by decide
example : has_error "all clean" 2 = true := by decide

example :
    validate_file (fun _ => none) (fun _ => .timesOut) "SELECT 1;" =
      .ok (false, "Validation timed out after 120 seconds.", []) := rfl

example :
    main_run "  " (fun _ => none) (fun _ => .timesOut) (fun _ => false)
      (fun _ => "") = .ok ⟨0, false, [], []⟩ := rfl

example :
    main_run "a.snowsql" (fun _ => none)
      (fun _ => .completes "ok" "" 0) (fun _ => true) (fun _ => "SELECT 1;") =
      .ok ⟨0, false, [], []⟩ := rfl

example :
    main_run "a.snowsql b.sql" (fun _ => none)
      (fun _ => .completes "x [UNPARSABLE] y" "" 1) (fun _ => true)
      (fun _ => "SELECT 1;") =
      .ok ⟨1, true, [("a.snowsql", "x [UNPARSABLE] y")], ["a.snowsql"]⟩ := rfl

/-! ## Structural facts about the scan -/

theorem flatMap_segChars_map_lit (l : List Char) :
    (l.map Seg.lit).flatMap segChars = l := by
  induction l with
  | nil => rfl
  | cons c cs ih => simp [segChars, ih]

theorem flatMap_segChars_reverse_map_lit (l : List Char) :
    ((l.map Seg.lit).reverse).flatMap segChars = l.reverse := by
  rw [← List.map_reverse]
  exact flatMap_segChars_map_lit _

theorem scanFinish_chars (segs : List Seg) (st : ScanSt) :
    (scanFinish (segs, st)).flatMap segChars =
      segs.flatMap segChars ++ stChars st := by
  cases st <;>
    simp [scanFinish, stChars, segChars, flatMap_segChars_map_lit,
      flatMap_segChars_reverse_map_lit]

theorem foldl_scanStep_chars (cs : List Char) :
    ∀ (segs : List Seg) (st : ScanSt),
      (scanFinish (cs.foldl scanStep (segs, st))).flatMap segChars =
        segs.flatMap segChars ++ stChars st ++ cs := by
  induction cs with
  | nil => intro segs st; simp [scanFinish_chars]
  | cons c cs ih =>
    intro segs st
    cases st with
    | out =>
      by_cases h : c = '$' <;>
        simp [scanStep, h, ih, segChars, stChars]
    | dollar =>
      by_cases h1 : c = '{'
      · simp [scanStep, h1, ih, segChars, stChars]
      · by_cases h2 : c = '$' <;>
          simp [scanStep, h1, h2, ih, segChars, stChars]
    | inTok acc =>
      by_cases h1 : c = '}'
      · by_cases h2 : acc = [] <;>
          simp [scanStep, h1, h2, ih, segChars, stChars]
      · simp [scanStep, h1, ih, segChars, stChars]

/-- Every character of the input is accounted for by exactly the segments
the scan produces, in order: the scan is a decomposition of the text. -/
theorem scanSegs_chars (cs : List Char) :
    (scanSegs cs).flatMap segChars = cs := by
  simpa [stChars] using foldl_scanStep_chars cs [] .out

theorem scanFinish_tok (segs : List Seg) (st : ScanSt) (n : List Char)
    (h : Seg.tok n ∈ scanFinish (segs, st)) : Seg.tok n ∈ segs := by
  cases st <;> simp [scanFinish] at h <;> tauto

theorem foldl_scanStep_tok_nonempty (cs : List Char) :
    ∀ (segs : List Seg) (st : ScanSt),
      (∀ n, Seg.tok n ∈ segs → n ≠ []) →
      ∀ n, Seg.tok n ∈ scanFinish (cs.foldl scanStep (segs, st)) → n ≠ [] := by
  induction cs with
  | nil =>
    intro segs st hs n hn
    exact hs n (scanFinish_tok segs st n hn)
  | cons c cs ih =>
    intro segs st hs
    cases st with
    | out =>
      by_cases h : c = '$'
      · simp only [List.foldl_cons, scanStep, if_pos h]
        exact ih segs .dollar hs
      · simp only [List.foldl_cons, scanStep, if_neg h]
        refine ih (segs ++ [.lit c]) .out ?_
        intro n hn
        rcases List.mem_append.1 hn with h1 | h1
        · exact hs n h1
        · simp at h1
    | dollar =>
      by_cases h1 : c = '{'
      · simp only [List.foldl_cons, scanStep, if_pos h1]
        exact ih segs (.inTok []) hs
      · by_cases h2 : c = '$'
        · simp only [List.foldl_cons, scanStep, if_neg h1, if_pos h2]
          refine ih (segs ++ [.lit '$']) .dollar ?_
          intro n hn
          rcases List.mem_append.1 hn with h3 | h3
          · exact hs n h3
          · simp at h3
        · simp only [List.foldl_cons, scanStep, if_neg h1, if_neg h2]
          refine ih (segs ++ [.lit '$', .lit c]) .out ?_
          intro n hn
          rcases List.mem_append.1 hn with h3 | h3
          · exact hs n h3
          · simp at h3
    | inTok acc =>
      by_cases h1 : c = '}'
      · by_cases h2 : acc = []
        · simp only [List.foldl_cons, scanStep, if_pos h1, if_pos h2]
          refine ih (segs ++ [.lit '$', .lit '{', .lit '}']) .out ?_
          intro n hn
          rcases List.mem_append.1 hn with h3 | h3
          · exact hs n h3
          · simp at h3
        · simp only [List.foldl_cons, scanStep, if_pos h1, if_neg h2]
          refine ih (segs ++ [.tok acc.reverse]) .out ?_
          intro n hn
          rcases List.mem_append.1 hn with h3 | h3
          · exact hs n h3
          · simp at h3
            subst h3
            simpa using h2
      · simp only [List.foldl_cons, scanStep, if_neg h1]
        exact ih segs (.inTok (c :: acc)) hs

/-- The `+` in `[^}]+`: a matched token name is never empty. -/
theorem scanSegs_tok_nonempty (cs : List Char) (n : List Char)
    (h : Seg.tok n ∈ scanSegs cs) : n ≠ [] :=
  foldl_scanStep_tok_nonempty cs [] .out (by simp) n h

/-! ## Facts about rendering and the missing list -/

theorem render_of_no_tok (env : String → Option String) (segs : List Seg)
    (h : hasTok segs = false) :
    segs.flatMap (renderSeg env) = segs.flatMap segChars ∧
      segs.flatMap (missingSeg env) = [] := by
  induction segs with
  | nil => exact ⟨rfl, rfl⟩
  | cons s segs ih =>
    simp only [hasTok, List.any_cons, Bool.or_eq_false_iff] at h
    obtain ⟨hs, hrest⟩ := h
    obtain ⟨ih1, ih2⟩ := ih hrest
    cases s with
    | lit c => simp [renderSeg, segChars, missingSeg, ih1, ih2]
    | tok n => simp [Seg.isTok] at hs

theorem mem_missing (env : String → Option String) (name : String)
    (segs : List Seg) (h : name ∈ segs.flatMap (missingSeg env)) :
    env name = none := by
  rw [List.mem_flatMap] at h
  obtain ⟨s, _, hm⟩ := h
  cases s with
  | lit c => simp [missingSeg] at hm
  | tok n =>
    simp only [missingSeg] at hm
    cases henv : env (String.mk n) with
    | some v => simp [henv] at hm
    | none =>
      rw [henv] at hm
      simp at hm
      subst hm
      exact henv

theorem count_missing (env : String → Option String) (name : String)
    (h : env name = none) (segs : List Seg) :
    (segs.flatMap (missingSeg env)).count name =
      segs.countP (fun s => s == Seg.tok name.data) := by
  induction segs with
  | nil => rfl
  | cons s segs ih =>
    rw [List.flatMap_cons, List.count_append, List.countP_cons, ih]
    cases s with
    | lit c =>
      simp [missingSeg]
    | tok n =>
      by_cases hn : n = name.data
      · subst hn
        have hmk : String.mk name.data = name := rfl
        simp [missingSeg, hmk, h, Nat.add_comm]
      · have hne : String.mk n ≠ name := by
          intro hc
          exact hn (congrArg String.data hc)
        cases henv : env (String.mk n) with
        | some v => simp [missingSeg, henv, hn]
        | none =>
          simp [missingSeg, henv, hn, List.count_cons, hne, Ne.symm hne]

/-! ## Characterisation of the main loop -/

theorem runLoop_ok (env : String → Option String)
    (run : String → SubprocessBehavior) (onDisk : String → Bool)
    (contentOf : String → String) :
    ∀ (files : List String) (errs : List (String × String))
      (fails : List String) (errs1 : List (String × String))
      (fails1 : List String),
      runLoop env run onDisk contentOf files (errs, fails) =
        .ok (errs1, fails1) →
      errs1 = errs ++ (files.filter (fileFails env run onDisk contentOf)).map
          (fun f => (f, failOutput env run contentOf f)) ∧
      fails1 = fails ++ files.filter (fileFails env run onDisk contentOf) := by
  intro files
  induction files with
  | nil =>
    intro errs fails errs1 fails1 h
    simp only [runLoop] at h
    injection h with h
    injection h with h1 h2
    simp [h1, h2]
  | cons f fs ih =>
    intro errs fails errs1 fails1 h
    simp only [runLoop] at h
    by_cases hd : onDisk f = true
    · cases hv : validate_file env run (contentOf f) with
      | error e =>
        rw [processFile, if_pos hd, hv] at h
        simp at h
      | ok res =>
        obtain ⟨passed, output, miss⟩ := res
        rw [processFile, if_pos hd, hv] at h
        dsimp only at h
        by_cases hp : passed = true
        · rw [if_pos hp] at h
          obtain ⟨ih1, ih2⟩ := ih errs fails errs1 fails1 h
          have hff : fileFails env run onDisk contentOf f = false := by
            simp [fileFails, hd, hv, hp]
          rw [List.filter_cons, hff]
          exact ⟨ih1, ih2⟩
        · rw [if_neg hp] at h
          obtain ⟨ih1, ih2⟩ :=
            ih (errs ++ [(f, String.mk (stripWs output.data))])
              (fails ++ [f]) errs1 fails1 h
          have hff : fileFails env run onDisk contentOf f = true := by
            simp [fileFails, hd, hv, hp]
          have hfo : failOutput env run contentOf f =
              String.mk (stripWs output.data) := by
            simp [failOutput, hv]
          rw [List.filter_cons, hff]
          constructor
          · rw [ih1]
            simp [hfo]
          · rw [ih2]
            simp
    · rw [processFile, if_neg hd] at h
      obtain ⟨ih1, ih2⟩ := ih errs fails errs1 fails1 h
      have hff : fileFails env run onDisk contentOf f = false := by
        simp [fileFails]
        intro hc
        exact absurd hc hd
      rw [List.filter_cons, hff]
      exact ⟨ih1, ih2⟩

/-- Whenever `main` terminates normally, its observable outcome is fully
determined by which candidate files fail: `failed_files` is exactly the
on-disk candidates whose validation fails, `all_errors` pairs each of them
with its stripped diagnostic text, the exit code is 0 or 1 by emptiness of
`failed_files`, and the report is written exactly when `all_errors` is
nonempty. -/
theorem main_run_ok_spec (changed : String) (env : String → Option String)
    (run : String → SubprocessBehavior) (onDisk : String → Bool)
    (contentOf : String → String) (r : MainResult)
    (h : main_run changed env run onDisk contentOf = .ok r) :
    r.failedFiles = (candidateFilesL (stripWs changed.data)).filter
        (fileFails env run onDisk contentOf) ∧
    r.allErrors = r.failedFiles.map
        (fun f => (f, failOutput env run contentOf f)) ∧
    r.exitCode = (if r.failedFiles = [] then 0 else 1) ∧
    r.reportWritten = !r.allErrors.isEmpty := by
  rw [main_run] at h
  by_cases h1 : stripWs changed.data = []
  · rw [if_pos h1] at h
    injection h with h
    subst h
    simp [h1, candidateFilesL, splitWs, splitWsAux]
  · rw [if_neg h1] at h
    by_cases h2 : candidateFilesL (stripWs changed.data) = []
    · rw [if_pos h2] at h
      injection h with h
      subst h
      simp [h2]
    · rw [if_neg h2] at h
      cases hl : runLoop env run onDisk contentOf
          (candidateFilesL (stripWs changed.data)) ([], []) with
      | error e => rw [hl] at h; simp at h
      | ok acc =>
        obtain ⟨errs1, fails1⟩ := acc
        rw [hl] at h
        injection h with h
        subst h
        obtain ⟨he, hf⟩ := runLoop_ok env run onDisk contentOf
          (candidateFilesL (stripWs changed.data)) [] [] errs1 fails1 hl
        simp only [List.nil_append] at he hf
        refine ⟨hf, ?_, rfl, rfl⟩
        rw [he, hf]

/-! ## The claims -/

/-- Claim C3: for every input text and environment, and every token name
present in the environment, `substitute_tokens` replaces each `${NAME}`
reference with exactly the environment's value for `NAME`, byte for byte
with no escaping or further processing, and that name never appears in the
returned missing-token list.  (The first conjunct says the output is the
in-order concatenation of the per-segment replacements; the second says the
replacement of every `${name}` segment is exactly `v`'s bytes.) -/
theorem substitute_tokens_found (env : String → Option String)
    (text name v : String) (h : env name = some v) :
    (substitute_tokens env text).1.data =
      (scanSegs text.data).flatMap (renderSeg env) ∧
    renderSeg env (Seg.tok name.data) = v.data ∧
    name ∉ (substitute_tokens env text).2 := by
  have hmk : String.mk name.data = name := rfl
  refine ⟨rfl, ?_, ?_⟩
  · simp [renderSeg, hmk, h]
  · intro hmem
    have hnone := mem_missing env name (scanSegs text.data) hmem
    rw [hnone] at h
    exact Option.noConfusion h

/-- Witness for C3 at `env = {DB ↦ prod}`, `text = "use ${DB};"`. -/
theorem substitute_tokens_found_witness :
    (substitute_tokens envDB "use ${DB};").1.data =
      (scanSegs "use ${DB};".data).flatMap (renderSeg envDB) ∧
    renderSeg envDB (Seg.tok "DB".data) = "prod".data ∧
    "DB" ∉ (substitute_tokens envDB "use ${DB};").2 :=
  substitute_tokens_found envDB "use ${DB};" "DB" "prod" (by decide)

/-- Claim C4: for every input text and environment, and every token name
absent from the environment, `substitute_tokens` replaces each `${NAME}`
reference with the fixed placeholder string incorporating that name (a
quoted literal), and appends the name to the missing-token list exactly
once per occurrence, with duplicates preserved in encounter order.  (The
missing list is the in-order concatenation of per-segment contributions, a
`${name}` segment contributing exactly `[name]`, and the number of entries
for the name equals the number of its token segments.) -/
theorem substitute_tokens_absent (env : String → Option String)
    (text name : String) (h : env name = none) :
    (substitute_tokens env text).1.data =
      (scanSegs text.data).flatMap (renderSeg env) ∧
    renderSeg env (Seg.tok name.data) = (placeholder name).data ∧
    (substitute_tokens env text).2 =
      (scanSegs text.data).flatMap (missingSeg env) ∧
    missingSeg env (Seg.tok name.data) = [name] ∧
    (substitute_tokens env text).2.count name =
      (scanSegs text.data).countP (fun s => s == Seg.tok name.data) := by
  have hmk : String.mk name.data = name := rfl
  refine ⟨rfl, ?_, rfl, ?_, ?_⟩
  · simp [renderSeg, hmk, h]
  · simp [missingSeg, hmk, h]
  · exact count_missing env name h (scanSegs text.data)

/-- Witness for C4 at `env = ∅`, `text = "${A} ${A}"`, `name = "A"`. -/
theorem substitute_tokens_absent_witness :
    (substitute_tokens envEmpty "${A} ${A}").1.data =
      (scanSegs "${A} ${A}".data).flatMap (renderSeg envEmpty) ∧
    renderSeg envEmpty (Seg.tok "A".data) = (placeholder "A").data ∧
    (substitute_tokens envEmpty "${A} ${A}").2 =
      (scanSegs "${A} ${A}".data).flatMap (missingSeg envEmpty) ∧
    missingSeg envEmpty (Seg.tok "A".data) = ["A"] ∧
    (substitute_tokens envEmpty "${A} ${A}").2.count "A" =
      (scanSegs "${A} ${A}".data).countP (fun s => s == Seg.tok "A".data) :=
  substitute_tokens_absent envEmpty "${A} ${A}" "A" rfl

/-- Claim C5: for every input text containing no token references (no
`${…}` pair matched by the token syntax, i.e. no `tok` segment in the
scan), `substitute_tokens` returns the text unchanged and an empty
missing-token list; hence substitution of already-substituted text with no
remaining token delimiters is a no-op. -/
theorem substitute_tokens_no_tokens (env : String → Option String)
    (text : String) (h : hasTok (scanSegs text.data) = false) :
    substitute_tokens env text = (text, []) := by
  obtain ⟨h1, h2⟩ := render_of_no_tok env (scanSegs text.data) h
  unfold substitute_tokens
  dsimp only
  rw [h1, h2, scanSegs_chars]

/-- Witness for C5 at `text = "SELECT 1;"`. -/
theorem substitute_tokens_no_tokens_witness :
    substitute_tokens envEmpty "SELECT 1;" = ("SELECT 1;", []) :=
  substitute_tokens_no_tokens envEmpty "SELECT 1;" (by decide)

/-- Claim C6 counterexample: on the input `${}` (empty token name) the
claim predicts a lookup of the empty string, a placeholder substitution and
an entry in the missing list; the code's pattern `[^}]+` requires at least
one character, so `${}` is returned unchanged and nothing is recorded. -/
theorem substitute_tokens_empty_name_cex :
    substitute_tokens envEmpty "${}" = ("${}", []) ∧
    (substitute_tokens envEmpty "${}").2.count "" = 0 :=
  ⟨rfl, rfl⟩

/-- Claim C6 (amended): an empty token name is never matched — the name
class `[^}]+` demands at least one character — so `${}` is left unchanged
with no lookup attempted and no missing-name recorded; more generally the
scan produces no empty-named token segment on any input. -/
theorem substitute_tokens_empty_name (env : String → Option String)
    (cs : List Char) :
    substitute_tokens env "${}" = ("${}", []) ∧
    (scanSegs cs).count (Seg.tok []) = 0 := by
  constructor
  · rfl
  · rw [List.count_eq_zero]
    intro hmem
    exact scanSegs_tok_nonempty cs [] hmem rfl

/-- Claim C1 counterexample: a checker run that completes with exit status
0 and whose output contains no `[UNPARSABLE]` marker is still classified as
failed, because the output contains `FATAL` — refuting "passed whenever the
exit status is 0 or 1 and the output contains no such marker". -/
theorem validate_file_unparsable_only_cex :
    runFatal (substitute_tokens envEmpty "SELECT 1;").1 =
      .completes "FATAL" "" 0 ∧
    containsSub ("FATAL" ++ "") unparsableMarker = false ∧
    validate_file envEmpty runFatal "SELECT 1;" = .ok (false, "FATAL", []) :=
  ⟨rfl, by decide, rfl⟩

/-- Claim C1 (amended): for every completed checker invocation,
`validate_file` classifies the file as failed if the combined stdout+stderr
output contains the unparsable marker, regardless of exit status; and
classifies it as passed whenever the exit status is 0 or 1 and the output
contains neither the unparsable marker nor the fatal marker `FATAL`. -/
theorem validate_file_classification (env : String → Option String)
    (run : String → SubprocessBehavior) (content out err : String)
    (code : Int)
    (hrun : run (substitute_tokens env content).1 = .completes out err code) :
    (containsSub (out ++ err) unparsableMarker = true →
      validate_file env run content =
        .ok (false, out ++ err, (substitute_tokens env content).2)) ∧
    ((code = 0 ∨ code = 1) →
      containsSub (out ++ err) unparsableMarker = false →
      containsSub (out ++ err) fatalMarker = false →
      validate_file env run content =
        .ok (true, out ++ err, (substitute_tokens env content).2)) := by
  constructor
  · intro hm
    simp [validate_file, hrun, has_error, hm]
  · intro hc hm1 hm2
    have hcode : (code == 0 || code == 1) = true := by
      rcases hc with h | h <;> simp [h]
    simp [validate_file, hrun, has_error, hm1, hm2, hcode]

/-- Witness for the amended C1: a marker-bearing exit-0 run fails, a clean
exit-0 run passes. -/
theorem validate_file_classification_witness :
    validate_file envEmpty runUnparsable "SELECT 1;" =
      .ok (false, "[UNPARSABLE]", []) ∧
    validate_file envEmpty runClean "SELECT 1;" = .ok (true, "ok", []) :=
  ⟨(validate_file_classification envEmpty runUnparsable "SELECT 1;"
      "[UNPARSABLE]" "" 0 rfl).1 (by decide),
   (validate_file_classification envEmpty runClean "SELECT 1;"
      "ok" "" 0 rfl).2 (Or.inl rfl) (by decide) (by decide)⟩

/-- Claim C10: for every completed checker invocation whose combined
stdout+stderr output contains the literal substring `FATAL`,
`validate_file` classifies the file as failed even when the exit status is
0 or 1 and the output contains no `[UNPARSABLE]` marker. -/
theorem validate_file_fatal_marker (env : String → Option String)
    (run : String → SubprocessBehavior) (content out err : String)
    (code : Int)
    (hrun : run (substitute_tokens env content).1 = .completes out err code)
    (_hcode : code = 0 ∨ code = 1)
    (_hun : containsSub (out ++ err) unparsableMarker = false)
    (hfat : containsSub (out ++ err) fatalMarker = true) :
    validate_file env run content =
      .ok (false, out ++ err, (substitute_tokens env content).2) := by
  simp [validate_file, hrun, has_error, hfat]

/-- Witness for C10: output `FATAL`, exit status 0, no unparsable marker. -/
theorem validate_file_fatal_marker_witness :
    validate_file envEmpty runFatal "SELECT 2;" = .ok (false, "FATAL", []) :=
  validate_file_fatal_marker envEmpty runFatal "SELECT 2;" "FATAL" "" 0
    rfl (Or.inl rfl) (by decide) (by decide)

/-- Claim C7: when a checker invocation exceeds the fixed timeout bound,
`validate_file` returns a failure result carrying the timeout-specific
diagnostic message and the already-computed missing-token list, rather
than raising. -/
theorem validate_file_timeout (env : String → Option String)
    (run : String → SubprocessBehavior) (content : String)
    (h : run (substitute_tokens env content).1 = .timesOut) :
    validate_file env run content =
      .ok (false, "Validation timed out after 120 seconds.",
        (substitute_tokens env content).2) := by
  simp [validate_file, h]

/-- Witness for C7 at an always-timing-out checker. -/
theorem validate_file_timeout_witness :
    validate_file envEmpty runTimesOut "SELECT 1;" =
      .ok (false, "Validation timed out after 120 seconds.", []) :=
  validate_file_timeout envEmpty runTimesOut "SELECT 1;" rfl

/-- Claim C8: on every exit path of `validate_file` — normal completion,
the caught timeout, or a propagating exception — the temporary file created
for the substituted content is removed before `validate_file` returns: the
set of live temp paths is restored exactly. -/
theorem validate_file_temp_cleanup (fs : List String) (tmpPath : String)
    (b : SubprocessBehavior) :
    validate_file_tempFiles fs tmpPath b = fs := by
  cases b <;> simp [validate_file_tempFiles]

/-- Claim C2: the process exit status is 0 when there are no candidate
files (input list empty after stripping, or no `.snowsql` entries) or when
every validated file passed, and 1 when at least one file failed
validation; when the input file list is empty, no report file is written.
(`failedFiles` is exactly the on-disk candidates whose validation fails, so
`failedFiles = []` states that every validated file passed.) -/
theorem main_exit_status (changed : String) (env : String → Option String)
    (run : String → SubprocessBehavior) (onDisk : String → Bool)
    (contentOf : String → String) :
    (stripWs changed.data = [] →
      main_run changed env run onDisk contentOf = .ok ⟨0, false, [], []⟩) ∧
    (candidateFilesL (stripWs changed.data) = [] →
      main_run changed env run onDisk contentOf = .ok ⟨0, false, [], []⟩) ∧
    ∀ r, main_run changed env run onDisk contentOf = .ok r →
      r.failedFiles = (candidateFilesL (stripWs changed.data)).filter
          (fileFails env run onDisk contentOf) ∧
      (r.failedFiles = [] → r.exitCode = 0) ∧
      (r.failedFiles ≠ [] → r.exitCode = 1) := by
  refine ⟨?_, ?_, ?_⟩
  · intro h1
    simp [main_run, h1]
  · intro h2
    by_cases h1 : stripWs changed.data = []
    · simp [main_run, h1]
    · simp [main_run, h1, h2]
  · intro r hr
    obtain ⟨hfail, herr, hexit, hrep⟩ :=
      main_run_ok_spec changed env run onDisk contentOf r hr
    refine ⟨hfail, ?_, ?_⟩
    · intro hnil
      rw [hexit, if_pos hnil]
    · intro hnn
      rw [hexit, if_neg hnn]

/-- Witness for C2: a whitespace-only list, a list with no `.snowsql`
entry, and a run with one failing file. -/
theorem main_exit_status_witness :
    main_run " " envEmpty runTimesOut noDisk emptyContent =
      .ok ⟨0, false, [], []⟩ ∧
    main_run "x.sql" envEmpty runTimesOut noDisk emptyContent =
      .ok ⟨0, false, [], []⟩ ∧
    (⟨1, true, [("a.snowsql", "FATAL")], ["a.snowsql"]⟩ :
      MainResult).exitCode = 1 :=
  ⟨(main_exit_status " " envEmpty runTimesOut noDisk emptyContent).1
      (by decide),
   (main_exit_status "x.sql" envEmpty runTimesOut noDisk emptyContent).2.1
      (by decide),
   ((main_exit_status "a.snowsql" envEmpty runFatal allDisk
        emptyContent).2.2
      ⟨1, true, [("a.snowsql", "FATAL")], ["a.snowsql"]⟩ rfl).2.2
      (by simp)⟩

/-- Claim C9: a candidate file path that does not exist on disk at
validation time is skipped: the loop body leaves the accumulator unchanged
(so it is neither validated nor counted as a failure), it never appears in
`failed_files` nor in any report block, and it cannot by itself cause a
non-zero exit status. -/
theorem main_skips_missing_file (env : String → Option String)
    (run : String → SubprocessBehavior) (onDisk : String → Bool)
    (contentOf : String → String) (f : String) (h : onDisk f = false) :
    (∀ acc, processFile env run onDisk contentOf acc f = .ok acc) ∧
    ∀ changed r, main_run changed env run onDisk contentOf = .ok r →
      f ∉ r.failedFiles ∧ ∀ p ∈ r.allErrors, p.1 ≠ f := by
  constructor
  · intro acc
    simp [processFile, h]
  · intro changed r hr
    obtain ⟨hfail, herr, _, _⟩ :=
      main_run_ok_spec changed env run onDisk contentOf r hr
    constructor
    · rw [hfail]
      intro hmem
      have hp := (List.mem_filter.1 hmem).2
      rw [fileFails] at hp
      simp [h] at hp
    · intro p hp
      rw [herr, List.mem_map] at hp
      obtain ⟨g, hg, hpg⟩ := hp
      rw [hfail] at hg
      have hgf := (List.mem_filter.1 hg).2
      intro hc
      rw [← hpg] at hc
      dsimp at hc
      subst hc
      rw [fileFails] at hgf
      simp [h] at hgf

/-- Witness for C9 at a file absent from the disk. -/
theorem main_skips_missing_file_witness :
    processFile envEmpty runTimesOut noDisk emptyContent ([], [])
      "a.snowsql" = .ok ([], []) ∧
    "a.snowsql" ∉ (⟨0, false, [], []⟩ : MainResult).failedFiles :=
  ⟨(main_skips_missing_file envEmpty runTimesOut noDisk emptyContent
      "a.snowsql" rfl).1 ([], []),
   ((main_skips_missing_file envEmpty runTimesOut noDisk emptyContent
      "a.snowsql" rfl).2 "a.snowsql" ⟨0, false, [], []⟩ rfl).1⟩

end SnowsqlValidate
